import Mathlib

/-!
Verification of `itk::BSplineBaseTransform`: parameter buffer aliasing and the
support-region indexes of the position Jacobian.

A shallow embedding of `Modules/Core/Transform/include/itkBSplineBaseTransform.hxx`.

* The transform is a record of its member variables.  `m_InputParametersPointer`
  is a C++ pointer; it is modelled as an optional `BufferRef`, which names either
  the transform's own `m_InternalParametersBuffer` or a caller-owned array living
  in `callerMemory` at some address.
* A `const ParametersType &` argument is a `BufferRef` too, so that the address
  comparisons of the source (`&parameters != &m_InternalParametersBuffer`) can be
  written down as they are.
* `itkExceptionMacro` becomes the error side of `Except`.
* Coefficient values are kept abstract (`α` with a zero): the code only copies
  them and fills with `0.0`.
-/

namespace itk

/-- The target of a reference to a `ParametersType` array: the transform's own
internal buffer, or an array owned by the calling environment. -/
inductive BufferRef where
  | internal : BufferRef
  | external (address : Nat) : BufferRef
  deriving DecidableEq, Repr

/-- The exceptions raised by the parameter API.  `sizeMismatch got expected gridIsEmpty`
carries the two numbers printed in the message and whether the message was
extended by the "size of the grid region is 0" hint. `nullPointer` stands for a
dereference of a NULL `m_InputParametersPointer` inside `WrapAsImages`. -/
inductive TransformError where
  | sizeMismatch (got expected : Nat) (gridIsEmpty : Bool) : TransformError
  | invalidState : TransformError
  | nullPointer : TransformError
  deriving DecidableEq, Repr

/-- The pixel container of one coefficient image after `SetImportPointer(p, n)`:
`p` is `base` advanced by `offset` elements, `n` is `count`.  A freshly created
image has imported nothing (`base = none`). -/
structure CoefficientImage where
  base : Option BufferRef
  offset : Nat
  count : Nat
  deriving DecidableEq, Repr

/-- The member variables of `BSplineBaseTransform<TScalarType, NDimensions, VSplineOrder>`
that the parameter API reads or writes.  `gridSize` is the size of
`m_CoefficientImages[0]->GetLargestPossibleRegion()`; its length is `NDimensions`.
`callerMemory` holds the arrays owned by the calling environment, by address.
`mtime` counts the calls of `Modified()`. -/
structure BSplineBaseTransform (α : Type) where
  gridSize : List Nat
  m_InternalParametersBuffer : List α
  m_InputParametersPointer : Option BufferRef
  m_CoefficientImages : List CoefficientImage
  callerMemory : Nat → List α
  mtime : Nat

namespace BSplineBaseTransform

variable {α : Type}

/-- The template argument `NDimensions` (also `SpaceDimension`). -/
def SpaceDimension (t : BSplineBaseTransform α) : Nat := t.gridSize.length

/-- The array a reference designates. -/
def deref (t : BSplineBaseTransform α) : BufferRef → List α
  | .internal => t.m_InternalParametersBuffer
  | .external a => t.callerMemory a

/-- Modelled from the spec: `Region::GetNumberOfPixels` is not part of the
files of this module; the number of lattice nodes is the product of the per-axis
sizes of the grid. -/
def GetNumberOfPixels (size : List Nat) : Nat := size.prod

/-- Modelled from the spec: `GetNumberOfParametersPerDimension` is declared in
the header and defined by the subclasses; it is `P`, the number of lattice
nodes. -/
def GetNumberOfParametersPerDimension (t : BSplineBaseTransform α) : Nat :=
  GetNumberOfPixels t.gridSize

/-- Modelled from the spec: `GetNumberOfParameters` is declared in the header
and defined by the subclasses; property P3 gives
`numberOfParameters == D × numberOfLatticeNodes`. -/
def GetNumberOfParameters (t : BSplineBaseTransform α) : Nat :=
  t.SpaceDimension * t.GetNumberOfParametersPerDimension

/-- `Modified()`: bump the modification time. -/
def Modified (t : BSplineBaseTransform α) : BSplineBaseTransform α :=
  { t with mtime := t.mtime + 1 }

/-- `Array::Fill(0.0)`: every element becomes zero, the length is kept. -/
def Fill [Zero α] (buffer : List α) : List α := List.replicate buffer.length 0

/-- `Array::SetSize(n)`: an array of the same length is left alone, otherwise a
new block of `n` elements is allocated (its contents are unspecified in C++ and
are taken to be zero here; `SetIdentity` overwrites them at once). -/
def SetSize [Zero α] (buffer : List α) (n : Nat) : List α :=
  if buffer.length = n then buffer else List.replicate n 0

/-- The constructor: an empty internal buffer, the parameters pointer aimed at
it ("make sure the parameters pointer is not NULL after construction"), and
`NDimensions` fresh coefficient images from `ArrayOfImagePointerGeneratorHelper`.
The geometry of the coefficient images is not set in this class: `gridSize` is
the grid the image class and the subclass give them, and `callerMemory` is the
memory of the calling environment the object is created in. -/
def construct (gridSize : List Nat) (callerMemory : Nat → List α) : BSplineBaseTransform α :=
  { gridSize := gridSize
    m_InternalParametersBuffer := []
    m_InputParametersPointer := some .internal
    m_CoefficientImages := List.replicate gridSize.length ⟨none, 0, 0⟩
    callerMemory := callerMemory
    mtime := 0 }

/-- `WrapAsImages()`: image `j` imports the `numberOfPixels` elements starting at
`dataPointer + j * numberOfPixels`, where `dataPointer` is the data block of the
array `m_InputParametersPointer` points to. -/
def WrapAsImages (t : BSplineBaseTransform α) : Except TransformError (BSplineBaseTransform α) :=
  match t.m_InputParametersPointer with
  | none => .error .nullPointer
  | some dataPointer =>
    let numberOfPixels := t.GetNumberOfParametersPerDimension
    .ok { t with
      m_CoefficientImages :=
        (List.range t.SpaceDimension).map
          (fun j => ⟨some dataPointer, j * numberOfPixels, numberOfPixels⟩) }

/-- `SetParameters(parameters)`. -/
def SetParameters (t : BSplineBaseTransform α) (parameters : BufferRef) :
    Except TransformError (BSplineBaseTransform α) :=
  if (t.deref parameters).length ≠ t.GetNumberOfParameters then
    .error (.sizeMismatch (t.deref parameters).length t.GetNumberOfParameters
      (decide (GetNumberOfPixels t.gridSize = 0)))
  else
    let t1 :=
      if parameters ≠ .internal then { t with m_InternalParametersBuffer := [] } else t
    let t2 := { t1 with m_InputParametersPointer := some parameters }
    match t2.WrapAsImages with
    | .error e => .error e
    | .ok t3 => .ok t3.Modified

/-- `SetParametersByValue(parameters)`: the message of its own size check has no
grid hint. -/
def SetParametersByValue (t : BSplineBaseTransform α) (parameters : BufferRef) :
    Except TransformError (BSplineBaseTransform α) :=
  if (t.deref parameters).length ≠ t.GetNumberOfParameters then
    .error (.sizeMismatch (t.deref parameters).length t.GetNumberOfParameters false)
  else
    SetParameters { t with m_InternalParametersBuffer := t.deref parameters } .internal

/-- `SetIdentity()`. -/
def SetIdentity [Zero α] (t : BSplineBaseTransform α) :
    Except TransformError (BSplineBaseTransform α) :=
  let t1 :=
    if t.m_InputParametersPointer = some .internal then
      { t with m_InternalParametersBuffer := Fill t.m_InternalParametersBuffer }
    else
      { t with
        m_InternalParametersBuffer := Fill (SetSize t.m_InternalParametersBuffer t.GetNumberOfParameters) }
  match t1.SetParameters .internal with
  | .error e => .error e
  | .ok t2 => .ok t2.Modified

/-- `GetParameters()`: the array the parameters pointer designates. -/
def GetParameters (t : BSplineBaseTransform α) : Except TransformError (List α) :=
  match t.m_InputParametersPointer with
  | none => .error .invalidState
  | some p => .ok (t.deref p)

/-- The place in memory of pixel `i` of coefficient image `j`: the array it lies
in and its position there. -/
def pixelAddress (t : BSplineBaseTransform α) (j i : Nat) : Option (BufferRef × Nat) :=
  match t.m_CoefficientImages[j]? with
  | none => none
  | some image =>
    match image.base with
    | none => none
    | some b => if i < image.count then some (b, image.offset + i) else none

/-- Reading pixel `i` of coefficient image `j` through its import pointer. -/
def GetPixel (t : BSplineBaseTransform α) (j i : Nat) : Option α :=
  match t.pixelAddress j i with
  | none => none
  | some (b, k) => (t.deref b)[k]?

end BSplineBaseTransform

/-! ## The support region walk of the position Jacobian -/

/-- Modelled from the spec: `ImageBase::ComputeOffset` is not among the files of
this module; the flat offset of a lattice index inside one coefficient grid has
axis 0 fastest, the stride of axis `d` being the product of the sizes of the
axes before `d`.  `stride` is the stride of the first axis still to be added. -/
def ComputeOffsetFrom (stride : Nat) : List Nat → List Int → Int
  | s :: size, i :: ind => i * stride + ComputeOffsetFrom (stride * s) size ind
  | _, _ => 0

/-- Modelled from the spec: the flat offset of a lattice index within a grid of
the given size whose first node has index 0. -/
def ComputeOffset (size : List Nat) (ind : List Int) : Int :=
  ComputeOffsetFrom 1 size ind

/-- Re-deriving a lattice node from a flat index and the grid shape: axis `d`
of the node is `(offset / stride d) % size d`, the stride of axis `d` being the
product of the sizes of the axes before it. -/
def nodeOfFlatIndexFrom (stride : Nat) : List Nat → Nat → List Nat
  | [], _ => []
  | s :: size, offset => (offset / stride % s) :: nodeOfFlatIndexFrom (stride * s) size offset

/-- The lattice node a flat index stands for in a grid of the given shape. -/
def nodeOfFlatIndex (size : List Nat) (offset : Nat) : List Nat :=
  nodeOfFlatIndexFrom 1 size offset

/-- Modelled from the spec: `ImageRegionIterator` is not among the files of this
module.  It walks a region (`regionIndex`, `regionSize`) of an image in raster
order; `position` is the lattice index it stands on and `atEnd` is set once the
last node of the region has been left. -/
structure ImageRegionIterator where
  imageSize : List Nat
  regionIndex : List Int
  regionSize : List Nat
  position : List Int
  atEnd : Bool
  deriving DecidableEq, Repr

namespace ImageRegionIterator

/-- Modelled from the spec: moving one node on in raster order.  Axis 0 is
advanced; an axis that has run through its extent goes back to the region's
first index and the next axis is advanced instead.  The flag tells that every
axis has run through. -/
def advance : List Int → List Nat → List Int → List Int × Bool
  | b :: start, n :: extent, i :: position =>
    if i + 1 < b + n then ((i + 1) :: position, false)
    else
      let r := advance start extent position
      (b :: r.1, r.2)
  | _, _, position => (position, true)

/-- Modelled from the spec: the iterator `IteratorType(image, region)`, standing
on the first node of the region; it is at its end at once when the region has no
node. -/
def begin (imageSize : List Nat) (regionIndex : List Int) (regionSize : List Nat) :
    ImageRegionIterator :=
  { imageSize := imageSize
    regionIndex := regionIndex
    regionSize := regionSize
    position := regionIndex
    atEnd := decide (regionSize.prod = 0) }

/-- Modelled from the spec: `IsAtEnd()`. -/
def IsAtEnd (it : ImageRegionIterator) : Bool := it.atEnd

/-- Modelled from the spec: `operator++`. -/
def next (it : ImageRegionIterator) : ImageRegionIterator :=
  let r := advance it.regionIndex it.regionSize it.position
  { it with position := r.1, atEnd := r.2 }

/-- Modelled from the spec: `&( it.Value() ) - image->GetBufferPointer()`, the
flat offset of the node the iterator stands on within the image's buffer. -/
def valueOffset (it : ImageRegionIterator) : Int :=
  ComputeOffset it.imageSize it.position

end ImageRegionIterator

/-- What can go wrong in the walk apart from exceptions: the loop bound of the
model is used up, or `indexes[counter]` is written past the end of the array. -/
inductive Fault where
  | outOfFuel : Fault
  | outOfBounds : Fault
  deriving DecidableEq, Repr

/-- The collaborators of the position Jacobian that live outside this class:
the spline order, the conversion of a physical point to a continuous index of
the coefficient image, the valid-region test of the subclass, and the weights
function `Evaluate(index, weights, supportIndex)`, which gives the new content
of `weights` and the support index. -/
structure Collaborators (Point CIndex ω : Type) where
  SplineOrder : Nat
  TransformPhysicalPointToContinuousIndex : Point → CIndex
  InsideValidRegion : CIndex → Bool
  Evaluate : CIndex → List ω → List ω × List Int

/-- The `while( !coeffIterator.IsAtEnd() )` loop of
`ComputeJacobianFromBSplineWeightsWithRespectToPosition`; it gives back the
final `counter` and `indexes`.  The offset is a position inside the coefficient
buffer, so its conversion to `unsigned long` is `Int.toNat`. -/
def supportLoop : Nat → ImageRegionIterator → Nat → List Nat → Except Fault (Nat × List Nat)
  | 0, _, _, _ => .error .outOfFuel
  | fuel + 1, coeffIterator, counter, indexes =>
    if coeffIterator.IsAtEnd then .ok (counter, indexes)
    else if counter < indexes.length then
      supportLoop fuel coeffIterator.next (counter + 1)
        (indexes.set counter coeffIterator.valueOffset.toNat)
    else .error .outOfBounds

namespace BSplineBaseTransform

variable {α Point CIndex ω : Type}

/-- `ComputeJacobianFromBSplineWeightsWithRespectToPosition(point, weights, indexes)`;
the two arrays are passed in with their prior content and given back. -/
def ComputeJacobianFromBSplineWeightsWithRespectToPosition [Zero ω]
    (t : BSplineBaseTransform α) (c : Collaborators Point CIndex ω) (fuel : Nat)
    (point : Point) (weights : List ω) (indexes : List Nat) :
    Except Fault (List ω × List Nat) :=
  let index := c.TransformPhysicalPointToContinuousIndex point
  if !c.InsideValidRegion index then
    .ok (Fill weights, Fill indexes)
  else
    let r := c.Evaluate index weights
    let supportIndex := r.2
    let supportSize := List.replicate t.SpaceDimension (c.SplineOrder + 1)
    let coeffIterator := ImageRegionIterator.begin t.gridSize supportIndex supportSize
    match supportLoop fuel coeffIterator 0 indexes with
    | .error e => .error e
    | .ok (_, indexes1) => .ok (r.1, indexes1)

end BSplineBaseTransform

/-! ## Auxiliary definitions for the proofs -/

namespace BSplineBaseTransform

variable {α : Type}

/-- The state `SetParameters` leaves behind when the size check passes. -/
def afterSetParameters (t : BSplineBaseTransform α) (parameters : BufferRef) :
    BSplineBaseTransform α :=
  { gridSize := t.gridSize
    m_InternalParametersBuffer :=
      if parameters = .internal then t.m_InternalParametersBuffer else []
    m_InputParametersPointer := some parameters
    m_CoefficientImages :=
      (List.range t.SpaceDimension).map
        (fun j => ⟨some parameters, j * GetNumberOfPixels t.gridSize, GetNumberOfPixels t.gridSize⟩)
    callerMemory := t.callerMemory
    mtime := t.mtime + 1 }

/-- A two by two grid in two dimensions and a caller whose every array is
`[1, 2, 3, 4, 5, 6, 7, 8]`. -/
def sampleTransform : BSplineBaseTransform Int :=
  construct [2, 2] (fun _ => [1, 2, 3, 4, 5, 6, 7, 8])

/-- A transform over a grid without nodes and a caller whose arrays have one
element. -/
def emptyGridTransform : BSplineBaseTransform Int :=
  construct [0, 3] (fun _ => [1])

end BSplineBaseTransform

/-- The lattice index the walk stands on after `k` steps from the first node of
a region: on each axis the region's first index plus the digit of `k` in the
mixed radix given by the region's extents, axis 0 least significant. -/
def rasterPosition : List Int → List Nat → Nat → List Int
  | b :: start, n :: extent, k =>
    (b + ((k % n : Nat) : Int)) :: rasterPosition start extent (k / n)
  | _, _, _ => []

/-- The support box `[anchor, anchor + order]` lies within `[0, size - 1]` on
every axis of the lattice (and the anchor has one coordinate per axis). -/
def SupportInsideGrid (order : Nat) : List Int → List Nat → Prop
  | a :: anchor, s :: size =>
    (0 ≤ a ∧ a + (order : Int) ≤ (s : Int) - 1) ∧ SupportInsideGrid order anchor size
  | [], [] => True
  | _, _ => False

/-- Whether a support box lies inside the lattice can be computed. -/
instance SupportInsideGrid.decidable (order : Nat) :
    (anchor : List Int) → (size : List Nat) → Decidable (SupportInsideGrid order anchor size)
  | _ :: anchor, _ :: size =>
    @instDecidableAnd _ _ _ (SupportInsideGrid.decidable order anchor size)
  | [], [] => isTrue trivial
  | [], _ :: _ => isFalse (fun h => h)
  | _ :: _, [] => isFalse (fun h => h)

/-- A four by five lattice, for the walk over a support region. -/
def sampleWalkTransform : BSplineBaseTransform Int :=
  BSplineBaseTransform.construct [4, 5] (fun _ => [])

/-- Collaborators of spline order 1 that take point `0` for the one point
inside the valid region, with support anchor `(1, 2)` and unit weights. -/
def sampleCollaborators : Collaborators Nat Nat Int :=
  { SplineOrder := 1
    TransformPhysicalPointToContinuousIndex := id
    InsideValidRegion := fun index => decide (index = 0)
    Evaluate := fun _ weights => (weights.map (fun _ => 1), [1, 2]) }

/-! ## Theorems: the parameter API -/

namespace BSplineBaseTransform

variable {α : Type}

theorem SetParameters_of_size_eq (t : BSplineBaseTransform α) (parameters : BufferRef)
    (h : (t.deref parameters).length = t.GetNumberOfParameters) :
    t.SetParameters parameters = .ok (t.afterSetParameters parameters) := by
  unfold SetParameters
  rw [if_neg (by simpa using h)]
  by_cases hp : parameters = .internal
  · subst hp
    simp [WrapAsImages, Modified, afterSetParameters, SpaceDimension,
      GetNumberOfParametersPerDimension]
  · simp [hp, WrapAsImages, Modified, afterSetParameters, SpaceDimension,
      GetNumberOfParametersPerDimension]

theorem SetParameters_of_size_ne (t : BSplineBaseTransform α) (parameters : BufferRef)
    (h : (t.deref parameters).length ≠ t.GetNumberOfParameters) :
    t.SetParameters parameters =
      .error (.sizeMismatch (t.deref parameters).length t.GetNumberOfParameters
        (decide (GetNumberOfPixels t.gridSize = 0))) := by
  unfold SetParameters
  rw [if_pos h]

theorem deref_afterSetParameters (t : BSplineBaseTransform α) (parameters : BufferRef) :
    (t.afterSetParameters parameters).deref parameters = t.deref parameters := by
  cases parameters <;> simp [afterSetParameters, deref]

theorem pixelAddress_afterSetParameters (t : BSplineBaseTransform α) (parameters : BufferRef)
    (j i : Nat) (hj : j < t.SpaceDimension) (hi : i < GetNumberOfPixels t.gridSize) :
    (t.afterSetParameters parameters).pixelAddress j i =
      some (parameters, j * GetNumberOfPixels t.gridSize + i) := by
  simp [pixelAddress, afterSetParameters, List.getElem?_map, List.getElem?_range hj, hi]

theorem SetParameters_ok_eq (t t1 : BSplineBaseTransform α) (parameters : BufferRef)
    (h : t.SetParameters parameters = .ok t1) :
    (t.deref parameters).length = t.GetNumberOfParameters ∧
      t1 = t.afterSetParameters parameters := by
  by_cases hs : (t.deref parameters).length = t.GetNumberOfParameters
  · rw [SetParameters_of_size_eq t parameters hs] at h
    injection h with h
    exact ⟨hs, h.symm⟩
  · rw [SetParameters_of_size_ne t parameters hs] at h
    cases h

theorem slice_position_lt {D P j i : Nat} (hj : j < D) (hi : i < P) : j * P + i < D * P := by
  calc j * P + i < j * P + P := by omega
    _ = (j + 1) * P := by ring
    _ ≤ D * P := Nat.mul_le_mul_right P hj

theorem slice_position_inj {P j1 i1 j2 i2 : Nat} (h1 : i1 < P) (h2 : i2 < P)
    (h : j1 * P + i1 = j2 * P + i2) : j1 = j2 ∧ i1 = i2 := by
  have hP : 0 < P := by omega
  have hd1 : (j1 * P + i1) / P = j1 := by
    rw [Nat.add_comm, Nat.add_mul_div_right _ _ hP, Nat.div_eq_of_lt h1, Nat.zero_add]
  have hd2 : (j2 * P + i2) / P = j2 := by
    rw [Nat.add_comm, Nat.add_mul_div_right _ _ hP, Nat.div_eq_of_lt h2, Nat.zero_add]
  have hj : j1 = j2 := by rw [← hd1, ← hd2, h]
  subst hj
  exact ⟨rfl, by omega⟩

theorem SetIdentity_of_ready [Zero α] (t : BSplineBaseTransform α)
    (h : t.m_InputParametersPointer ≠ some .internal ∨
      t.m_InternalParametersBuffer.length = t.GetNumberOfParameters) :
    t.SetIdentity =
      .ok (Modified (afterSetParameters
        { t with m_InternalParametersBuffer := List.replicate t.GetNumberOfParameters 0 }
        .internal)) := by
  unfold SetIdentity
  by_cases hp : t.m_InputParametersPointer = some .internal
  · have hl : t.m_InternalParametersBuffer.length = t.GetNumberOfParameters := by
      rcases h with h | h
      · exact absurd hp h
      · exact h
    simp only [hp, if_true]
    rw [SetParameters_of_size_eq _ _ (by simpa [deref, Fill, GetNumberOfParameters,
      SpaceDimension, GetNumberOfParametersPerDimension] using hl)]
    simp [Fill, hl]
  · simp only [hp, if_false]
    rw [SetParameters_of_size_eq _ _ (by
      simp [deref, Fill, SetSize, GetNumberOfParameters, SpaceDimension,
        GetNumberOfParametersPerDimension]
      split <;> simp_all)]
    have : Fill (SetSize t.m_InternalParametersBuffer t.GetNumberOfParameters) =
        List.replicate t.GetNumberOfParameters 0 := by
      unfold Fill SetSize
      split <;> simp_all
    simp [this]

/-- C1: `SetParameters(buffer)` succeeds exactly when the length of `buffer` is
`D × numberOfLatticeNodes`; for every other length it fails with a size
mismatch. -/
theorem SetParameters_succeeds_iff_size (t : BSplineBaseTransform α) (buffer : BufferRef) :
    ((∃ t1, t.SetParameters buffer = .ok t1) ↔
        (t.deref buffer).length = t.SpaceDimension * GetNumberOfPixels t.gridSize) ∧
      ((t.deref buffer).length ≠ t.SpaceDimension * GetNumberOfPixels t.gridSize →
        ∃ got expected cause,
          t.SetParameters buffer = .error (.sizeMismatch got expected cause)) := by
  have hN : t.GetNumberOfParameters = t.SpaceDimension * GetNumberOfPixels t.gridSize := rfl
  refine ⟨⟨?_, ?_⟩, ?_⟩
  · rintro ⟨t1, h1⟩
    by_contra hne
    rw [SetParameters_of_size_ne t buffer (by rw [hN]; exact hne)] at h1
    cases h1
  · intro h
    exact ⟨_, SetParameters_of_size_eq t buffer (by rw [hN]; exact h)⟩
  · intro hne
    exact ⟨_, _, _, SetParameters_of_size_ne t buffer (by rw [hN]; exact hne)⟩

/-- C2: after `SetParametersByValue(p)` with `p` of the expected length,
`GetParameters()` gives back `p`. -/
theorem SetParametersByValue_GetParameters (t : BSplineBaseTransform α) (p : BufferRef)
    (h : (t.deref p).length = t.SpaceDimension * GetNumberOfPixels t.gridSize) :
    ∃ t1, t.SetParametersByValue p = .ok t1 ∧ t1.GetParameters = .ok (t.deref p) := by
  have hN : t.GetNumberOfParameters = t.SpaceDimension * GetNumberOfPixels t.gridSize := rfl
  unfold SetParametersByValue
  rw [if_neg (by rw [hN]; simpa using h)]
  rw [SetParameters_of_size_eq _ _ (by simpa [deref, GetNumberOfParameters, SpaceDimension,
    GetNumberOfParametersPerDimension] using h)]
  exact ⟨_, rfl, by simp [GetParameters, afterSetParameters, deref]⟩

/-- C4 as amended: `GetParameters()` fails with `invalidState` exactly when the
parameters pointer is NULL, and the constructor leaves it pointing at the empty
internal buffer, which is what `GetParameters()` returns on a fresh transform. -/
theorem GetParameters_invalidState_iff (t : BSplineBaseTransform α) :
    (t.GetParameters = .error .invalidState ↔ t.m_InputParametersPointer = none) ∧
      ∀ (gridSize : List Nat) (callerMemory : Nat → List α),
        (construct gridSize callerMemory).GetParameters = .ok [] := by
  refine ⟨?_, fun _ _ => rfl⟩
  unfold GetParameters
  cases t.m_InputParametersPointer <;> simp

/-- C4 fails as written: on a freshly constructed transform `GetParameters()`
returns the empty internal buffer, not an error. -/
theorem GetParameters_fresh_is_ok :
    (construct [3, 3] (fun _ => ([] : List Int))).GetParameters = .ok [] ∧
      (construct [3, 3] (fun _ => ([] : List Int))).GetParameters ≠ .error .invalidState := by
  refine ⟨rfl, ?_⟩
  intro h
  cases h

/-- C8: when `SetParameters` fails with a size mismatch, the message carries the
empty-grid hint exactly when the grid region has no node. -/
theorem SetParameters_sizeMismatch_cause (t : BSplineBaseTransform α) (buffer : BufferRef)
    (got expected : Nat) (cause : Bool)
    (h : t.SetParameters buffer = .error (.sizeMismatch got expected cause)) :
    (cause = true ↔ GetNumberOfPixels t.gridSize = 0) := by
  by_cases hs : (t.deref buffer).length = t.GetNumberOfParameters
  · rw [SetParameters_of_size_eq t buffer hs] at h
    cases h
  · rw [SetParameters_of_size_ne t buffer hs] at h
    injection h with h
    injection h with _ _ h3
    subst h3
    simp

/-- The extent of the two branches of `SetIdentity()`: it succeeds and leaves the
all-zero vector of length `D × numberOfLatticeNodes` behind whenever the active
buffer is not the internal one, or the internal buffer already has that length;
with the internal buffer active at any other length the call raises the size
mismatch of `SetParameters`. -/
theorem SetIdentity_zero_or_mismatch [Zero α] (t : BSplineBaseTransform α) :
    ((t.m_InputParametersPointer ≠ some .internal ∨
          t.m_InternalParametersBuffer.length = t.SpaceDimension * GetNumberOfPixels t.gridSize) →
        ∃ t1, t.SetIdentity = .ok t1 ∧
          t1.GetParameters =
            .ok (List.replicate (t.SpaceDimension * GetNumberOfPixels t.gridSize) 0)) ∧
      ((t.m_InputParametersPointer = some .internal ∧
          t.m_InternalParametersBuffer.length ≠ t.SpaceDimension * GetNumberOfPixels t.gridSize) →
        t.SetIdentity =
          .error (.sizeMismatch t.m_InternalParametersBuffer.length
            (t.SpaceDimension * GetNumberOfPixels t.gridSize)
            (decide (GetNumberOfPixels t.gridSize = 0)))) := by
  have hN : t.GetNumberOfParameters = t.SpaceDimension * GetNumberOfPixels t.gridSize := rfl
  constructor
  · intro h
    rw [← hN] at h
    refine ⟨_, SetIdentity_of_ready t h, ?_⟩
    simp [GetParameters, Modified, afterSetParameters, deref, hN]
  · rintro ⟨hp, hl⟩
    unfold SetIdentity
    simp only [hp, if_true]
    rw [SetParameters_of_size_ne _ _ (by simpa [deref, Fill, GetNumberOfParameters,
      SpaceDimension, GetNumberOfParametersPerDimension] using hl)]
    simp [deref, Fill, GetNumberOfParameters, SpaceDimension, GetNumberOfParametersPerDimension]

/-- C5: after a successful `SetParameters(buffer)` pixel `i` of coefficient image
`j` is element `j * P + i` of that buffer; the `D` images are pairwise disjoint
slices and cover the `D * P` entries of the buffer. -/
theorem SetParameters_wraps_dimension_major (t t1 : BSplineBaseTransform α)
    (buffer : BufferRef) (h : t.SetParameters buffer = .ok t1) :
    (t1.deref buffer = t.deref buffer ∧
        (t.deref buffer).length = t.SpaceDimension * GetNumberOfPixels t.gridSize) ∧
      (∀ j i, j < t.SpaceDimension → i < GetNumberOfPixels t.gridSize →
        t1.pixelAddress j i = some (buffer, j * GetNumberOfPixels t.gridSize + i) ∧
        j * GetNumberOfPixels t.gridSize + i < (t.deref buffer).length ∧
        t1.GetPixel j i = (t.deref buffer)[j * GetNumberOfPixels t.gridSize + i]?) ∧
      (∀ j1 i1 j2 i2, j1 < t.SpaceDimension → i1 < GetNumberOfPixels t.gridSize →
        j2 < t.SpaceDimension → i2 < GetNumberOfPixels t.gridSize →
        t1.pixelAddress j1 i1 = t1.pixelAddress j2 i2 → j1 = j2 ∧ i1 = i2) ∧
      (∀ n, n < t.SpaceDimension * GetNumberOfPixels t.gridSize →
        ∃ j i, j < t.SpaceDimension ∧ i < GetNumberOfPixels t.gridSize ∧
          t1.pixelAddress j i = some (buffer, n)) := by
  obtain ⟨hs, rfl⟩ := SetParameters_ok_eq t t1 buffer h
  have hN : t.GetNumberOfParameters = t.SpaceDimension * GetNumberOfPixels t.gridSize := rfl
  rw [hN] at hs
  refine ⟨⟨deref_afterSetParameters t buffer, hs⟩, ?_, ?_, ?_⟩
  · intro j i hj hi
    have hlt := slice_position_lt hj hi
    refine ⟨pixelAddress_afterSetParameters t buffer j i hj hi, by omega, ?_⟩
    unfold GetPixel
    rw [pixelAddress_afterSetParameters t buffer j i hj hi]
    simp only [deref_afterSetParameters]
  · intro j1 i1 j2 i2 hj1 hi1 hj2 hi2 heq
    rw [pixelAddress_afterSetParameters t buffer j1 i1 hj1 hi1,
      pixelAddress_afterSetParameters t buffer j2 i2 hj2 hi2] at heq
    injection heq with heq
    injection heq with _ heq
    exact slice_position_inj hi1 hi2 heq
  · intro n hn
    have hP : 0 < GetNumberOfPixels t.gridSize := by
      rcases Nat.eq_zero_or_pos (GetNumberOfPixels t.gridSize) with h0 | h0
      · rw [h0] at hn; omega
      · exact h0
    refine ⟨n / GetNumberOfPixels t.gridSize, n % GetNumberOfPixels t.gridSize, ?_,
      Nat.mod_lt _ hP, ?_⟩
    · exact (Nat.div_lt_iff_lt_mul hP).mpr hn
    · rw [pixelAddress_afterSetParameters t buffer _ _
        ((Nat.div_lt_iff_lt_mul hP).mpr hn) (Nat.mod_lt _ hP), Nat.div_add_mod']

/-- C9: when the active buffer is a caller's array `b`, installed by a successful
`SetParameters(b)`, `SetIdentity()` leaves the caller's memory as it was, makes
the internal buffer the active one, and the coefficient images read zeros from
the internal buffer. -/
theorem SetIdentity_leaves_caller_buffer [Zero α] (t0 t : BSplineBaseTransform α) (b : Nat)
    (h : t0.SetParameters (.external b) = .ok t) :
    ∃ t1, t.SetIdentity = .ok t1 ∧
      t1.callerMemory = t.callerMemory ∧
      t1.deref (.external b) = t.deref (.external b) ∧
      t1.m_InputParametersPointer = some .internal ∧
      t1.m_InputParametersPointer ≠ some (.external b) ∧
      ∀ j i, j < t.SpaceDimension → i < GetNumberOfPixels t.gridSize →
        t1.pixelAddress j i = some (.internal, j * GetNumberOfPixels t.gridSize + i) ∧
        t1.GetPixel j i = some 0 := by
  obtain ⟨_, rfl⟩ := SetParameters_ok_eq t0 t (.external b) h
  refine ⟨_, SetIdentity_of_ready _ (Or.inl (by simp [afterSetParameters])), rfl, rfl, rfl,
    by simp [Modified, afterSetParameters], ?_⟩
  intro j i hj hi
  have hlt := slice_position_lt hj hi
  have hj0 : j < t0.SpaceDimension := hj
  have hi0 : i < GetNumberOfPixels t0.gridSize := hi
  have hadd := pixelAddress_afterSetParameters
    ({ (t0.afterSetParameters (.external b)) with
        m_InternalParametersBuffer :=
          List.replicate (t0.afterSetParameters (.external b)).GetNumberOfParameters 0 })
    .internal j i hj0 hi0
  have hadd2 : (Modified (afterSetParameters
      ({ (t0.afterSetParameters (.external b)) with
        m_InternalParametersBuffer :=
          List.replicate (t0.afterSetParameters (.external b)).GetNumberOfParameters 0 })
      .internal)).pixelAddress j i =
      some (.internal, j * GetNumberOfPixels t0.gridSize + i) := hadd
  refine ⟨hadd2, ?_⟩
  unfold GetPixel
  rw [hadd2]
  have hlt0 : j * GetNumberOfPixels t0.gridSize + i <
      t0.gridSize.length * GetNumberOfPixels t0.gridSize := hlt
  simp [Modified, afterSetParameters, deref, GetNumberOfParameters, SpaceDimension,
    GetNumberOfParametersPerDimension, hlt0]

theorem SetParameters_succeeds_iff_size_witness :
    ∃ t1, sampleTransform.SetParameters (.external 0) = .ok t1 :=
  (SetParameters_succeeds_iff_size sampleTransform (.external 0)).1.2 (by decide)

theorem SetParametersByValue_GetParameters_witness :
    ∃ t1, sampleTransform.SetParametersByValue (.external 0) = .ok t1 ∧
      t1.GetParameters = .ok [1, 2, 3, 4, 5, 6, 7, 8] :=
  SetParametersByValue_GetParameters sampleTransform (.external 0) (by decide)

theorem SetParameters_sizeMismatch_cause_witness :
    emptyGridTransform.SetParameters (.external 0) = .error (.sizeMismatch 1 0 true) ∧
      (true = true ↔ GetNumberOfPixels emptyGridTransform.gridSize = 0) :=
  ⟨rfl, SetParameters_sizeMismatch_cause emptyGridTransform (.external 0) 1 0 true rfl⟩

theorem SetParameters_wraps_dimension_major_witness :
    (sampleTransform.afterSetParameters (.external 0)).GetPixel 1 2 = some 7 := by
  have h := (SetParameters_wraps_dimension_major sampleTransform
    (sampleTransform.afterSetParameters (.external 0)) (.external 0) rfl).2.1 1 2
    (by decide) (by decide)
  exact h.2.2

theorem SetIdentity_leaves_caller_buffer_witness :
    ∃ t1, (sampleTransform.afterSetParameters (.external 0)).SetIdentity = .ok t1 ∧
      t1.deref (.external 0) = [1, 2, 3, 4, 5, 6, 7, 8] ∧
      t1.m_InputParametersPointer = some .internal ∧
      t1.GetPixel 1 2 = some 0 := by
  obtain ⟨t1, h1, _, h3, h4, _, h6⟩ := SetIdentity_leaves_caller_buffer sampleTransform
    (sampleTransform.afterSetParameters (.external 0)) 0 rfl
  exact ⟨t1, h1, h3, h4, (h6 1 2 (by decide) (by decide)).2⟩

end BSplineBaseTransform

/-! ## Theorems: the support region walk -/

theorem ComputeOffsetFrom_scale (c : Nat) (size : List Nat) (ind : List Int) :
    ComputeOffsetFrom c size ind = c * ComputeOffsetFrom 1 size ind := by
  induction size generalizing c ind with
  | nil => simp [ComputeOffsetFrom]
  | cons s size ih =>
    cases ind with
    | nil => simp [ComputeOffsetFrom]
    | cons i ind =>
      simp only [ComputeOffsetFrom]
      rw [ih (c * s), ih (1 * s)]
      push_cast
      ring

theorem ComputeOffset_cons (s : Nat) (size : List Nat) (i : Int) (ind : List Int) :
    ComputeOffset (s :: size) (i :: ind) = i + s * ComputeOffset size ind := by
  unfold ComputeOffset
  simp only [ComputeOffsetFrom]
  rw [ComputeOffsetFrom_scale (1 * s)]
  push_cast
  ring

theorem nodeOfFlatIndexFrom_scale (c : Nat) (size : List Nat) (offset : Nat) :
    nodeOfFlatIndexFrom c size offset = nodeOfFlatIndexFrom 1 size (offset / c) := by
  induction size generalizing c offset with
  | nil => simp [nodeOfFlatIndexFrom]
  | cons s size ih =>
    simp only [nodeOfFlatIndexFrom]
    rw [ih (c * s), ih (1 * s), Nat.div_one, Nat.one_mul, Nat.div_div_eq_div_mul]

theorem nodeOfFlatIndex_cons (s : Nat) (size : List Nat) (offset : Nat) :
    nodeOfFlatIndex (s :: size) offset = (offset % s) :: nodeOfFlatIndex size (offset / s) := by
  unfold nodeOfFlatIndex
  simp only [nodeOfFlatIndexFrom]
  rw [nodeOfFlatIndexFrom_scale (1 * s), Nat.div_one, Nat.one_mul]

theorem nodeOfFlatIndex_length (size : List Nat) (offset : Nat) :
    (nodeOfFlatIndex size offset).length = size.length := by
  induction size generalizing offset with
  | nil => rfl
  | cons s size ih => rw [nodeOfFlatIndex_cons]; simp [ih]

theorem succ_mod_of_lt {k n : Nat} (h : k % n + 1 < n) :
    (k + 1) % n = k % n + 1 ∧ (k + 1) / n = k / n := by
  have hn : 0 < n := by omega
  have hk : k + 1 = (k % n + 1) + n * (k / n) := by
    have := Nat.mod_add_div k n
    omega
  constructor
  · rw [hk, Nat.add_mul_mod_self_left, Nat.mod_eq_of_lt h]
  · rw [hk, Nat.add_mul_div_left _ _ hn, Nat.div_eq_of_lt h, Nat.zero_add]

theorem succ_mod_of_eq {k n : Nat} (hn : 0 < n) (h : k % n + 1 = n) :
    (k + 1) % n = 0 ∧ (k + 1) / n = k / n + 1 := by
  have hk : k + 1 = 0 + n * (k / n + 1) := by
    have := Nat.mod_add_div k n
    rw [Nat.mul_add, Nat.mul_one]
    omega
  constructor
  · rw [hk, Nat.add_mul_mod_self_left, Nat.zero_mod]
  · rw [hk, Nat.add_mul_div_left _ _ hn, Nat.zero_div, Nat.zero_add]

theorem advance_rasterPosition (start : List Int) (extent : List Nat) (k : Nat)
    (hlen : start.length = extent.length) (hk : k < extent.prod) :
    (k + 1 < extent.prod →
        ImageRegionIterator.advance start extent (rasterPosition start extent k) =
          (rasterPosition start extent (k + 1), false)) ∧
      (k + 1 = extent.prod →
        (ImageRegionIterator.advance start extent (rasterPosition start extent k)).2 = true) := by
  induction start generalizing extent k with
  | nil =>
    cases extent with
    | nil =>
      simp only [List.prod_nil] at hk ⊢
      refine ⟨fun h => by omega, fun _ => ?_⟩
      simp [ImageRegionIterator.advance, rasterPosition]
    | cons n extent => simp at hlen
  | cons b start ih =>
    cases extent with
    | nil => simp at hlen
    | cons n extent =>
      have hlen1 : start.length = extent.length := by simpa using hlen
      rw [List.prod_cons] at hk ⊢
      have hn : 0 < n := by
        rcases Nat.eq_zero_or_pos n with h0 | h0
        · rw [h0] at hk; simp at hk
        · exact h0
      have hq : k / n < extent.prod := by
        rw [Nat.div_lt_iff_lt_mul hn, Nat.mul_comm]; exact hk
      have hr : k % n < n := Nat.mod_lt _ hn
      simp only [rasterPosition, ImageRegionIterator.advance]
      by_cases hstep : k % n + 1 < n
      · have hcond : b + ((k % n : Nat) : Int) + 1 < b + (n : Int) := by omega
        obtain ⟨hm, hd⟩ := succ_mod_of_lt hstep
        rw [if_pos hcond, hm, hd]
        refine ⟨fun _ => ?_, fun hlast => ?_⟩
        · simp only [Prod.mk.injEq, List.cons.injEq, and_true]
          push_cast
          omega
        · exfalso
          have h1 : n * (k / n + 1) ≤ n * extent.prod := Nat.mul_le_mul_left n hq
          have h2 := Nat.mod_add_div k n
          rw [Nat.mul_add, Nat.mul_one] at h1
          omega
      · have hcond : ¬ (b + ((k % n : Nat) : Int) + 1 < b + (n : Int)) := by omega
        have hfull : k % n + 1 = n := by omega
        obtain ⟨hm, hd⟩ := succ_mod_of_eq hn hfull
        rw [if_neg hcond, hm, hd]
        have hsucc : k + 1 = n * (k / n + 1) := by
          have h2 := Nat.mod_add_div k n
          rw [Nat.mul_add, Nat.mul_one]
          omega
        obtain ⟨ih1, ih2⟩ := ih extent (k / n) hlen1 hq
        refine ⟨fun hlt => ?_, fun hlast => ?_⟩
        · have hq1 : k / n + 1 < extent.prod := by
            rw [hsucc] at hlt
            exact Nat.lt_of_mul_lt_mul_left hlt
          rw [ih1 hq1]
          simp
        · have hq1 : k / n + 1 = extent.prod := by
            rw [hsucc] at hlast
            exact Nat.eq_of_mul_eq_mul_left hn hlast
          exact ih2 hq1

theorem supportLoop_walk (size : List Nat) (start : List Int) (extent : List Nat)
    (hlen : start.length = extent.length) (n : Nat) :
    ∀ (j fuel : Nat) (it : ImageRegionIterator) (indexes : List Nat),
      j + n = extent.prod → n < fuel → extent.prod ≤ indexes.length →
      it.imageSize = size → it.regionIndex = start → it.regionSize = extent →
      it.atEnd = decide (n = 0) → (0 < n → it.position = rasterPosition start extent j) →
      ∃ out, supportLoop fuel it j indexes = .ok (extent.prod, out) ∧
        out.length = indexes.length ∧
        (∀ k, j ≤ k → k < extent.prod →
          out[k]? = some (ComputeOffset size (rasterPosition start extent k)).toNat) ∧
        (∀ k, (k < j ∨ extent.prod ≤ k) → out[k]? = indexes[k]?) := by
  induction n with
  | zero =>
    intro j fuel it indexes hj hfuel _ _ _ _ hend _
    obtain ⟨f, rfl⟩ : ∃ f, fuel = f + 1 := ⟨fuel - 1, by omega⟩
    have hend1 : it.IsAtEnd = true := by simpa [ImageRegionIterator.IsAtEnd] using hend
    refine ⟨indexes, ?_, rfl, fun k h1 h2 => by omega, fun _ _ => rfl⟩
    simp only [supportLoop, hend1, if_true]
    rw [← hj, Nat.add_zero]
  | succ n ih =>
    intro j fuel it indexes hj hfuel hcap hsize hstart hextent hend hpos
    obtain ⟨f, rfl⟩ : ∃ f, fuel = f + 1 := ⟨fuel - 1, by omega⟩
    have hend1 : it.IsAtEnd = false := by simpa [ImageRegionIterator.IsAtEnd] using hend
    have hjlt : j < extent.prod := by omega
    have hjcap : j < indexes.length := by omega
    have hposj : it.position = rasterPosition start extent j := hpos (by omega)
    obtain ⟨hadv1, hadv2⟩ := advance_rasterPosition start extent j hlen hjlt
    have hoff : it.valueOffset = ComputeOffset size (rasterPosition start extent j) := by
      simp [ImageRegionIterator.valueOffset, hsize, hposj]
    obtain ⟨out, hout, hlenout, hnew, hold⟩ :=
      ih (j + 1) f it.next (indexes.set j it.valueOffset.toNat)
        (by omega) (by omega) (by simpa using hcap)
        (by simp [ImageRegionIterator.next, hsize])
        (by simp [ImageRegionIterator.next, hstart])
        (by simp [ImageRegionIterator.next, hextent])
        (by
          simp only [ImageRegionIterator.next, hstart, hextent, hposj]
          rcases Nat.eq_zero_or_pos n with h0 | h0
          · rw [hadv2 (by omega)]; simp [h0]
          · rw [hadv1 (by omega)]
            simp only [Bool.false_eq, decide_eq_false_iff_not]
            omega)
        (by
          intro h0
          simp only [ImageRegionIterator.next, hstart, hextent, hposj]
          rw [hadv1 (by omega)])
    refine ⟨out, ?_, by simpa using hlenout, ?_, ?_⟩
    · simp only [supportLoop, hend1, hjcap, if_true, Bool.false_eq_true, if_false]
      exact hout
    · intro k hk1 hk2
      rcases Nat.eq_or_lt_of_le hk1 with heq | hlt
      · subst heq
        rw [hold j (Or.inl (by omega)), List.getElem?_set_self hjcap, hoff]
      · exact hnew k (by omega) hk2
    · intro k hk
      rw [hold k (by omega), List.getElem?_set_ne (by omega)]

theorem ComputeOffset_inside (size : List Nat) (position : List Int)
    (h : List.Forall₂ (fun (i : Int) (s : Nat) => 0 ≤ i ∧ i < (s : Int)) position size) :
    (ComputeOffset size position).toNat < size.prod ∧
      0 ≤ ComputeOffset size position ∧
      nodeOfFlatIndex size (ComputeOffset size position).toNat = position.map Int.toNat := by
  induction h with
  | nil => simp [ComputeOffset, ComputeOffsetFrom, nodeOfFlatIndex, nodeOfFlatIndexFrom]
  | @cons i s position size hi _ ih =>
    obtain ⟨h1, h2, h3⟩ := ih
    obtain ⟨o, ho⟩ : ∃ o : Nat, ComputeOffset size position = (o : Int) :=
      ⟨(ComputeOffset size position).toNat, (Int.toNat_of_nonneg h2).symm⟩
    obtain ⟨r, hr⟩ : ∃ r : Nat, i = (r : Int) := ⟨i.toNat, (Int.toNat_of_nonneg hi.1).symm⟩
    have hrs : r < s := by have := hi.2; omega
    have hs : 0 < s := by omega
    rw [ho] at h1 h3
    simp only [Int.toNat_ofNat] at h1 h3
    have hval : ComputeOffset (s :: size) (i :: position) = ((r + s * o : Nat) : Int) := by
      rw [ComputeOffset_cons, ho, hr]
      push_cast
      ring
    rw [hval]
    simp only [Int.toNat_ofNat, List.prod_cons, List.map_cons]
    refine ⟨?_, Int.ofNat_nonneg _, ?_⟩
    · calc r + s * o < s + s * o := by omega
        _ = s * (o + 1) := by ring
        _ ≤ s * size.prod := Nat.mul_le_mul_left s h1
    · rw [nodeOfFlatIndex_cons, Nat.add_mul_mod_self_left, Nat.mod_eq_of_lt hrs,
        Nat.add_mul_div_left _ _ hs, Nat.div_eq_of_lt hrs, Nat.zero_add, h3, hr]
      simp

theorem SupportInsideGrid.length_eq {order : Nat} {anchor : List Int} {size : List Nat}
    (h : SupportInsideGrid order anchor size) : anchor.length = size.length := by
  induction anchor generalizing size with
  | nil =>
    cases size with
    | nil => rfl
    | cons s size => simp [SupportInsideGrid] at h
  | cons a anchor ih =>
    cases size with
    | nil => simp [SupportInsideGrid] at h
    | cons s size =>
      simp only [SupportInsideGrid] at h
      simp [ih h.2]

theorem rasterPosition_inside {order : Nat} {anchor : List Int} {size : List Nat}
    (h : SupportInsideGrid order anchor size) (k : Nat) :
    List.Forall₂ (fun (i : Int) (s : Nat) => 0 ≤ i ∧ i < (s : Int))
      (rasterPosition anchor (List.replicate size.length (order + 1)) k) size := by
  induction anchor generalizing size k with
  | nil =>
    cases size with
    | nil => simp [rasterPosition]
    | cons s size => simp [SupportInsideGrid] at h
  | cons a anchor ih =>
    cases size with
    | nil => simp [SupportInsideGrid] at h
    | cons s size =>
      simp only [SupportInsideGrid] at h
      simp only [List.length_cons, List.replicate_succ, rasterPosition]
      have hm : k % (order + 1) < order + 1 := Nat.mod_lt _ (Nat.succ_pos _)
      refine List.Forall₂.cons ⟨by omega, by omega⟩ (ih h.2 _)

theorem rasterPosition_getElem {order : Nat} {anchor : List Int} {size : List Nat}
    (h : SupportInsideGrid order anchor size) (k d : Nat) (hd : d < size.length) :
    ∃ a, anchor[d]? = some a ∧ 0 ≤ a ∧
      (rasterPosition anchor (List.replicate size.length (order + 1)) k)[d]? =
        some (a + ((k / (order + 1) ^ d % (order + 1) : Nat) : Int)) := by
  induction anchor generalizing size k d with
  | nil =>
    cases size with
    | nil => simp at hd
    | cons s size => simp [SupportInsideGrid] at h
  | cons a anchor ih =>
    cases size with
    | nil => simp [SupportInsideGrid] at h
    | cons s size =>
      simp only [SupportInsideGrid] at h
      simp only [List.length_cons, List.replicate_succ, rasterPosition]
      cases d with
      | zero => exact ⟨a, by simp, h.1.1, by simp⟩
      | succ d =>
        obtain ⟨a1, h1, h2, h3⟩ := ih h.2 (k / (order + 1)) d (by simpa using hd)
        refine ⟨a1, by simpa using h1, h2, ?_⟩
        rw [List.getElem?_cons_succ, h3, Nat.div_div_eq_div_mul, pow_succ, Nat.mul_comm]

theorem rasterPosition_zero (start : List Int) (extent : List Nat)
    (hlen : start.length = extent.length) : rasterPosition start extent 0 = start := by
  induction start generalizing extent with
  | nil => cases extent <;> simp [rasterPosition]
  | cons b start ih =>
    cases extent with
    | nil => simp at hlen
    | cons n extent =>
      simp only [rasterPosition, Nat.zero_mod, Nat.zero_div]
      rw [ih extent (by simpa using hlen)]
      simp

theorem rasterPosition_injective {order : Nat} {anchor : List Int} {size : List Nat}
    (h : SupportInsideGrid order anchor size) (k1 k2 : Nat)
    (h1 : k1 < (order + 1) ^ size.length) (h2 : k2 < (order + 1) ^ size.length)
    (heq : (rasterPosition anchor (List.replicate size.length (order + 1)) k1).map Int.toNat =
      (rasterPosition anchor (List.replicate size.length (order + 1)) k2).map Int.toNat) :
    k1 = k2 := by
  induction anchor generalizing size k1 k2 with
  | nil =>
    cases size with
    | nil =>
      simp only [List.length_nil, pow_zero] at h1 h2
      omega
    | cons s size => simp [SupportInsideGrid] at h
  | cons a anchor ih =>
    cases size with
    | nil => simp [SupportInsideGrid] at h
    | cons s size =>
      simp only [SupportInsideGrid] at h
      simp only [List.length_cons, List.replicate_succ, rasterPosition, List.map_cons,
        List.cons.injEq] at heq
      simp only [List.length_cons, pow_succ] at h1 h2
      have hb : 0 < order + 1 := Nat.succ_pos _
      have hq : k1 / (order + 1) = k2 / (order + 1) :=
        ih h.2 _ _ ((Nat.div_lt_iff_lt_mul hb).mpr h1) ((Nat.div_lt_iff_lt_mul hb).mpr h2) heq.2
      have hr : k1 % (order + 1) = k2 % (order + 1) := by
        have := heq.1
        have ha := h.1.1
        omega
      rw [← Nat.mod_add_div k1 (order + 1), ← Nat.mod_add_div k2 (order + 1), hq, hr]

namespace BSplineBaseTransform

variable {α Point CIndex ω : Type}

theorem supportWalk_result [Zero ω] (t : BSplineBaseTransform α)
    (c : Collaborators Point CIndex ω) (fuel : Nat) (point : Point) (weights : List ω)
    (indexes : List Nat)
    (hInside : c.InsideValidRegion (c.TransformPhysicalPointToContinuousIndex point) = true)
    (hBox : SupportInsideGrid c.SplineOrder
      (c.Evaluate (c.TransformPhysicalPointToContinuousIndex point) weights).2 t.gridSize)
    (hFuel : (c.SplineOrder + 1) ^ t.SpaceDimension < fuel)
    (hLen : (c.SplineOrder + 1) ^ t.SpaceDimension ≤ indexes.length) :
    ∃ out,
      t.ComputeJacobianFromBSplineWeightsWithRespectToPosition c fuel point weights indexes =
        .ok ((c.Evaluate (c.TransformPhysicalPointToContinuousIndex point) weights).1, out) ∧
      supportLoop fuel
        (ImageRegionIterator.begin t.gridSize
          (c.Evaluate (c.TransformPhysicalPointToContinuousIndex point) weights).2
          (List.replicate t.SpaceDimension (c.SplineOrder + 1))) 0 indexes =
        .ok ((c.SplineOrder + 1) ^ t.SpaceDimension, out) ∧
      out.length = indexes.length ∧
      (∀ k, k < (c.SplineOrder + 1) ^ t.SpaceDimension →
        out[k]? = some (ComputeOffset t.gridSize
          (rasterPosition (c.Evaluate (c.TransformPhysicalPointToContinuousIndex point) weights).2
            (List.replicate t.SpaceDimension (c.SplineOrder + 1)) k)).toNat) ∧
      (∀ k, (c.SplineOrder + 1) ^ t.SpaceDimension ≤ k → out[k]? = indexes[k]?) := by
  have hprod : (List.replicate t.SpaceDimension (c.SplineOrder + 1)).prod =
      (c.SplineOrder + 1) ^ t.SpaceDimension := List.prod_replicate _ _
  have hpos : 0 < (c.SplineOrder + 1) ^ t.SpaceDimension := pow_pos (Nat.succ_pos _) _
  have hlen : (c.Evaluate (c.TransformPhysicalPointToContinuousIndex point) weights).2.length =
      (List.replicate t.SpaceDimension (c.SplineOrder + 1)).length := by
    rw [hBox.length_eq, List.length_replicate]; rfl
  obtain ⟨out, h1, h2, h3, h4⟩ :=
    supportLoop_walk t.gridSize
      (c.Evaluate (c.TransformPhysicalPointToContinuousIndex point) weights).2
      (List.replicate t.SpaceDimension (c.SplineOrder + 1)) hlen
      ((c.SplineOrder + 1) ^ t.SpaceDimension) 0 fuel
      (ImageRegionIterator.begin t.gridSize
        (c.Evaluate (c.TransformPhysicalPointToContinuousIndex point) weights).2
        (List.replicate t.SpaceDimension (c.SplineOrder + 1))) indexes
      (by rw [hprod]; omega) hFuel (by rw [hprod]; exact hLen) rfl rfl rfl
      (by
        simp only [ImageRegionIterator.begin, hprod])
      (by
        intro _
        simp only [ImageRegionIterator.begin]
        exact (rasterPosition_zero _ _ hlen).symm)
  rw [hprod] at h1 h3 h4
  refine ⟨out, ?_, h1, h2, fun k hk => h3 k (Nat.zero_le _) hk, fun k hk => h4 k (Or.inr hk)⟩
  unfold ComputeJacobianFromBSplineWeightsWithRespectToPosition
  simp only [hInside, Bool.not_true, Bool.false_eq_true, if_false, h1]

/-- C6: for a point whose support box lies inside the lattice, the walk writes
exactly `W = (order + 1) ^ D` flat indexes (the loop leaves `counter = W` and
the entries from `W` on are untouched), and decoding entry `k` from the grid
shape gives, on every axis `d`, the anchor's coordinate plus digit `d` of `k` in
base `order + 1` (axis 0 least significant). -/
theorem supportIndexes_decode_to_raster_nodes [Zero ω] (t : BSplineBaseTransform α)
    (c : Collaborators Point CIndex ω) (fuel : Nat) (point : Point) (weights : List ω)
    (indexes : List Nat)
    (hInside : c.InsideValidRegion (c.TransformPhysicalPointToContinuousIndex point) = true)
    (hBox : SupportInsideGrid c.SplineOrder
      (c.Evaluate (c.TransformPhysicalPointToContinuousIndex point) weights).2 t.gridSize)
    (hFuel : (c.SplineOrder + 1) ^ t.SpaceDimension < fuel)
    (hLen : (c.SplineOrder + 1) ^ t.SpaceDimension ≤ indexes.length) :
    ∃ out,
      t.ComputeJacobianFromBSplineWeightsWithRespectToPosition c fuel point weights indexes =
        .ok ((c.Evaluate (c.TransformPhysicalPointToContinuousIndex point) weights).1, out) ∧
      supportLoop fuel
        (ImageRegionIterator.begin t.gridSize
          (c.Evaluate (c.TransformPhysicalPointToContinuousIndex point) weights).2
          (List.replicate t.SpaceDimension (c.SplineOrder + 1))) 0 indexes =
        .ok ((c.SplineOrder + 1) ^ t.SpaceDimension, out) ∧
      out.length = indexes.length ∧
      (∀ k, (c.SplineOrder + 1) ^ t.SpaceDimension ≤ k → out[k]? = indexes[k]?) ∧
      ∀ k, k < (c.SplineOrder + 1) ^ t.SpaceDimension →
        ∃ f, out[k]? = some f ∧
          (nodeOfFlatIndex t.gridSize f).length = t.SpaceDimension ∧
          ∀ d, d < t.SpaceDimension →
            ∃ (a : Int) (n : Nat),
              (c.Evaluate (c.TransformPhysicalPointToContinuousIndex point) weights).2[d]? =
                some a ∧
              (nodeOfFlatIndex t.gridSize f)[d]? = some n ∧
              (n : Int) = a + ((k / (c.SplineOrder + 1) ^ d % (c.SplineOrder + 1) : Nat) : Int) := by
  obtain ⟨out, h1, h2, h3, h4, h5⟩ :=
    supportWalk_result t c fuel point weights indexes hInside hBox hFuel hLen
  refine ⟨out, h1, h2, h3, h5, ?_⟩
  intro k hk
  refine ⟨_, h4 k hk, nodeOfFlatIndex_length _ _, ?_⟩
  intro d hd
  obtain ⟨a, ha1, ha2, ha3⟩ := rasterPosition_getElem hBox k d hd
  obtain ⟨_, _, hnode⟩ := ComputeOffset_inside t.gridSize _ (rasterPosition_inside hBox k)
  refine ⟨a, (a + ((k / (c.SplineOrder + 1) ^ d % (c.SplineOrder + 1) : Nat) : Int)).toNat,
    ha1, ?_, ?_⟩
  · have hnode1 : nodeOfFlatIndex t.gridSize
        (ComputeOffset t.gridSize
          (rasterPosition (c.Evaluate (c.TransformPhysicalPointToContinuousIndex point) weights).2
            (List.replicate t.SpaceDimension (c.SplineOrder + 1)) k)).toNat =
        (rasterPosition (c.Evaluate (c.TransformPhysicalPointToContinuousIndex point) weights).2
            (List.replicate t.SpaceDimension (c.SplineOrder + 1)) k).map Int.toNat := hnode
    have ha4 : (rasterPosition
        (c.Evaluate (c.TransformPhysicalPointToContinuousIndex point) weights).2
        (List.replicate t.SpaceDimension (c.SplineOrder + 1)) k)[d]? =
        some (a + ((k / (c.SplineOrder + 1) ^ d % (c.SplineOrder + 1) : Nat) : Int)) := ha3
    rw [hnode1, List.getElem?_map, ha4]
    rfl
  · omega

/-- C7: for a point outside the valid region the function gives back all-zero
weights and all-zero indexes of the arrays' lengths whatever their prior
content, without a fault, and does so for every weights function and every loop
bound: the evaluator has no part in the result. -/
theorem outside_valid_region_gives_zeros [Zero ω] (t : BSplineBaseTransform α)
    (c : Collaborators Point CIndex ω) (fuel : Nat) (point : Point) (weights : List ω)
    (indexes : List Nat)
    (hOutside : c.InsideValidRegion (c.TransformPhysicalPointToContinuousIndex point) = false) :
    t.ComputeJacobianFromBSplineWeightsWithRespectToPosition c fuel point weights indexes =
        .ok (List.replicate weights.length 0, List.replicate indexes.length 0) ∧
      ∀ (evaluate : CIndex → List ω → List ω × List Int) (fuel1 : Nat),
        t.ComputeJacobianFromBSplineWeightsWithRespectToPosition
            { c with Evaluate := evaluate } fuel1 point weights indexes =
          .ok (List.replicate weights.length 0, List.replicate indexes.length 0) := by
  constructor
  · unfold ComputeJacobianFromBSplineWeightsWithRespectToPosition
    simp [hOutside, Fill]
  · intro evaluate fuel1
    unfold ComputeJacobianFromBSplineWeightsWithRespectToPosition
    simp [hOutside, Fill]

/-- C10: for a point whose support box lies inside the lattice, every flat index
written is below `P`, the `W` written indexes are pairwise distinct, and for
every output dimension `j` the shifted index `flatIndex + j * P` lies in the
block `[j * P, (j + 1) * P)` of the `D * P` long parameter vector. -/
theorem supportIndexes_in_range_and_distinct [Zero ω] (t : BSplineBaseTransform α)
    (c : Collaborators Point CIndex ω) (fuel : Nat) (point : Point) (weights : List ω)
    (indexes : List Nat)
    (hInside : c.InsideValidRegion (c.TransformPhysicalPointToContinuousIndex point) = true)
    (hBox : SupportInsideGrid c.SplineOrder
      (c.Evaluate (c.TransformPhysicalPointToContinuousIndex point) weights).2 t.gridSize)
    (hFuel : (c.SplineOrder + 1) ^ t.SpaceDimension < fuel)
    (hLen : (c.SplineOrder + 1) ^ t.SpaceDimension ≤ indexes.length) :
    ∃ out,
      t.ComputeJacobianFromBSplineWeightsWithRespectToPosition c fuel point weights indexes =
        .ok ((c.Evaluate (c.TransformPhysicalPointToContinuousIndex point) weights).1, out) ∧
      (∀ k, k < (c.SplineOrder + 1) ^ t.SpaceDimension →
        ∃ f, out[k]? = some f ∧ f < GetNumberOfPixels t.gridSize ∧
          ∀ j, j < t.SpaceDimension →
            j * GetNumberOfPixels t.gridSize ≤ f + j * GetNumberOfPixels t.gridSize ∧
            f + j * GetNumberOfPixels t.gridSize < (j + 1) * GetNumberOfPixels t.gridSize ∧
            f + j * GetNumberOfPixels t.gridSize <
              t.SpaceDimension * GetNumberOfPixels t.gridSize) ∧
      ∀ k1 k2, k1 < (c.SplineOrder + 1) ^ t.SpaceDimension →
        k2 < (c.SplineOrder + 1) ^ t.SpaceDimension → out[k1]? = out[k2]? → k1 = k2 := by
  obtain ⟨out, h1, _, _, h4, _⟩ :=
    supportWalk_result t c fuel point weights indexes hInside hBox hFuel hLen
  refine ⟨out, h1, ?_, ?_⟩
  · intro k hk
    obtain ⟨hlt0, _, _⟩ := ComputeOffset_inside t.gridSize _ (rasterPosition_inside hBox k)
    have hlt : (ComputeOffset t.gridSize
        (rasterPosition (c.Evaluate (c.TransformPhysicalPointToContinuousIndex point) weights).2
          (List.replicate t.SpaceDimension (c.SplineOrder + 1)) k)).toNat <
        GetNumberOfPixels t.gridSize := hlt0
    refine ⟨_, h4 k hk, hlt, ?_⟩
    intro j hj
    have hslice := slice_position_lt hj hlt
    refine ⟨Nat.le_add_left _ _, ?_, by rw [Nat.add_comm]; exact hslice⟩
    rw [Nat.add_mul, Nat.one_mul, Nat.add_comm]
    exact Nat.add_lt_add_left hlt _
  · intro k1 k2 hk1 hk2 heq
    rw [h4 k1 hk1, h4 k2 hk2] at heq
    injection heq with heq
    obtain ⟨_, _, hn1⟩ := ComputeOffset_inside t.gridSize _ (rasterPosition_inside hBox k1)
    obtain ⟨_, _, hn2⟩ := ComputeOffset_inside t.gridSize _ (rasterPosition_inside hBox k2)
    have hmap : (rasterPosition
        (c.Evaluate (c.TransformPhysicalPointToContinuousIndex point) weights).2
        (List.replicate t.gridSize.length (c.SplineOrder + 1)) k1).map Int.toNat =
        (rasterPosition
        (c.Evaluate (c.TransformPhysicalPointToContinuousIndex point) weights).2
        (List.replicate t.gridSize.length (c.SplineOrder + 1)) k2).map Int.toNat := by
      rw [← hn1, ← hn2]
      exact congrArg _ heq
    exact rasterPosition_injective hBox k1 k2 hk1 hk2 hmap

theorem supportIndexes_decode_to_raster_nodes_witness :
    ∃ out,
      sampleWalkTransform.ComputeJacobianFromBSplineWeightsWithRespectToPosition
          sampleCollaborators 5 0 [0, 0, 0, 0] [9, 9, 9, 9, 9] = .ok ([1, 1, 1, 1], out) ∧
        out.length = 5 ∧ out[4]? = some 9 ∧
        ∃ f, out[3]? = some f ∧ (nodeOfFlatIndex [4, 5] f)[1]? = some 3 := by
  obtain ⟨out, h1, _, h3, h4, h5⟩ :=
    supportIndexes_decode_to_raster_nodes sampleWalkTransform sampleCollaborators 5 0
      [0, 0, 0, 0] [9, 9, 9, 9, 9] rfl
      (by decide) (by decide) (by decide)
  obtain ⟨f, hf, _, hd⟩ := h5 3 (by decide)
  obtain ⟨a, n, ha, hn, hv⟩ := hd 1 (by decide)
  refine ⟨out, h1, h3, h4 4 (by decide), f, hf, ?_⟩
  have ha2 : a = 2 := by
    have : some (2 : Int) = some a := ha
    injection this with this
    exact this.symm
  subst ha2
  have hn3 : n = 3 := by
    have : (n : Int) = 2 + ((3 / (1 + 1) ^ 1 % (1 + 1) : Nat) : Int) := hv
    norm_num at this
    omega
  rw [← hn3]
  exact hn

theorem outside_valid_region_gives_zeros_witness :
    sampleWalkTransform.ComputeJacobianFromBSplineWeightsWithRespectToPosition
        sampleCollaborators 0 7 [5, 6, 7, 8] [9, 9, 9, 9] = .ok ([0, 0, 0, 0], [0, 0, 0, 0]) :=
  (outside_valid_region_gives_zeros sampleWalkTransform sampleCollaborators 0 7
    [5, 6, 7, 8] [9, 9, 9, 9] rfl).1

theorem supportIndexes_in_range_and_distinct_witness :
    ∃ out,
      sampleWalkTransform.ComputeJacobianFromBSplineWeightsWithRespectToPosition
          sampleCollaborators 5 0 [0, 0, 0, 0] [9, 9, 9, 9, 9] = .ok ([1, 1, 1, 1], out) ∧
        ∃ f, out[3]? = some f ∧ f < 20 ∧ f + 1 * 20 < 2 * 20 := by
  obtain ⟨out, h1, h2, _⟩ :=
    supportIndexes_in_range_and_distinct sampleWalkTransform sampleCollaborators 5 0
      [0, 0, 0, 0] [9, 9, 9, 9, 9] rfl
      (by decide) (by decide) (by decide)
  obtain ⟨f, hf, hlt, hj⟩ := h2 3 (by decide)
  exact ⟨out, h1, f, hf, hlt, (hj 1 (by decide)).2.1⟩

end BSplineBaseTransform

end itk
